import Mathlib

/-!
Verification of the tcp go-micro server (package `tcp`).

The definitions below are a shallow embedding of the two source files of the
repository: `tcp.go` (the `tcpServer` lifecycle: `Subscribe`, `Register`,
`Deregister`, the heartbeat loop inside `Start`, and the accept loop `serve`)
and the subscriber file (`newSubscriber`, `validateSubscriber`,
`createSubHandler`).  External collaborators (the broker, the register
directory, codecs, the reflection runtime) are modelled at their interface
boundary: their outcomes are inputs to the embedded functions.

Concurrency note: `createSubHandler` spawns one goroutine per handler and
collects exactly `len(sb.handlers)` results from a channel; the embedding runs
the same loop sequentially in handler order, which is one admissible schedule.
Spawning a handler's goroutine is what "the handler is invoked" means below.
-/

namespace MicroTcp

/-! ## Subscription dispatcher (`createSubHandler` in the subscriber file)

One inbound broker event is dispatched against a subscription with a list of
handlers.  For each handler the code allocates a fresh request value, replays
the codec over the raw body (`ReadHeader` then `ReadBody`) and spawns the
(wrapper-chained) invocation.  The behaviour of the external codec and of the
handler body for a given event is summarised per handler: an optional error
from each decode step and the optional error returned by the invocation. -/

structure SubHandlerBehavior where
  readHeaderErr : Option String
  readBodyErr : Option String
  invokeErr : Option String
deriving DecidableEq

/-- Go map lookup `m[k]` on a `map[string]string`: the zero value `""` when
the key is absent. -/
def headerGet (hdr : List (String × String)) (k : String) : String :=
  match hdr.lookup k with
  | some v => v
  | none => ""

/-- The `for i := 0; i < len(sb.handlers); i++` loop of `createSubHandler`,
run sequentially.  Returns the indices of the handlers that were invoked
(their goroutine was spawned) and either the decode error that aborted the
whole closure (`return err` inside the loop) or the list of every handler's
returned error value. -/
def dispatchLoop : List SubHandlerBehavior → Nat → List Nat × Except String (List (Option String))
  | [], _ => ([], Except.ok [])
  | h :: rest, i =>
    match h.readHeaderErr with
    | some e => ([], Except.error e)
    | none =>
      match h.readBodyErr with
      | some e => ([], Except.error e)
      | none =>
        match dispatchLoop rest (i + 1) with
        | (inv, Except.error e) => (i :: inv, Except.error e)
        | (inv, Except.ok results) => (i :: inv, Except.ok (h.invokeErr :: results))

/-- `fmt.Errorf("subscriber error: %s", strings.Join(errors, "\n"))`. -/
def subscriberCombinedError (errs : List String) : String :=
  "subscriber error: " ++ String.intercalate "\n" errs

/-- The broker handler closure returned by `createSubHandler`: resolve the
codec for the event's `Content-Type` header (error if none is registered),
run the per-handler decode/spawn loop, collect every result, and aggregate
the non-nil handler errors into one combined error.  `codecs` is the set of
content types registered in `opts.Codecs`.  The first component of the result
is the list of invoked handler indices, the second the returned error. -/
def createSubHandler (codecs : List String) (hdr : List (String × String))
    (hs : List SubHandlerBehavior) : List Nat × Option String :=
  let ct := headerGet hdr "Content-Type"
  if codecs.contains ct then
    match dispatchLoop hs 0 with
    | (inv, Except.error e) => (inv, some e)
    | (inv, Except.ok results) =>
      let errors := results.filterMap id
      if errors.length > 0 then (inv, some (subscriberCombinedError errors))
      else (inv, none)
  else ([], some "codec.ErrUnknownContentType")

/-! Auxiliary lemmas about the dispatch loop. -/

theorem dispatchLoop_clean : ∀ (hs : List SubHandlerBehavior) (i : Nat),
    (∀ h ∈ hs, h.readHeaderErr = none ∧ h.readBodyErr = none) →
    dispatchLoop hs i = (List.range' i hs.length, Except.ok (hs.map SubHandlerBehavior.invokeErr))
  | [], _, _ => rfl
  | h :: rest, i, hcl => by
    have hh := hcl h (List.mem_cons_self h rest)
    have hrest := dispatchLoop_clean rest (i + 1)
      (fun x hx => hcl x (List.mem_cons_of_mem h hx))
    simp only [dispatchLoop, hh.1, hh.2, hrest, List.length_cons, List.map_cons,
      List.range'_succ]

theorem dispatchLoop_abort : ∀ (pre : List SubHandlerBehavior)
    (bad : SubHandlerBehavior) (post : List SubHandlerBehavior) (e : String) (i : Nat),
    (∀ h ∈ pre, h.readHeaderErr = none ∧ h.readBodyErr = none) →
    (bad.readHeaderErr = some e ∨ (bad.readHeaderErr = none ∧ bad.readBodyErr = some e)) →
    dispatchLoop (pre ++ bad :: post) i = (List.range' i pre.length, Except.error e)
  | [], bad, post, e, i, _, hbad => by
    rcases hbad with hb | ⟨hb1, hb2⟩
    · simp [dispatchLoop, hb]
    · simp [dispatchLoop, hb1, hb2]
  | h :: pre, bad, post, e, i, hpre, hbad => by
    have hh := hpre h (List.mem_cons_self h pre)
    have hrest := dispatchLoop_abort pre bad post e (i + 1)
      (fun x hx => hpre x (List.mem_cons_of_mem h hx)) hbad
    simp only [List.cons_append, dispatchLoop, hh.1, hh.2, List.append_eq, hrest,
      List.length_cons, List.range'_succ]

/-- Claim C1: with the codec resolved and every handler's decode succeeding,
dispatching one event through `createSubHandler` invokes all `N` handlers
exactly once (indices `0..N-1`, each once), succeeds iff no handler returned
an error, and otherwise returns the single combined error
`"subscriber error: "` followed by the newline-joined messages of exactly the
failing handlers. -/
theorem dispatch_error_aggregation (codecs : List String) (hdr : List (String × String))
    (hs : List SubHandlerBehavior)
    (hct : codecs.contains (headerGet hdr "Content-Type") = true)
    (hclean : ∀ h ∈ hs, h.readHeaderErr = none ∧ h.readBodyErr = none) :
    (createSubHandler codecs hdr hs).1 = List.range hs.length ∧
    ((createSubHandler codecs hdr hs).2 = none ↔
      hs.filterMap SubHandlerBehavior.invokeErr = []) ∧
    (∀ e es, hs.filterMap SubHandlerBehavior.invokeErr = e :: es →
      (createSubHandler codecs hdr hs).2 =
        some ("subscriber error: " ++ String.intercalate "\n" (e :: es))) := by
  have hloop := dispatchLoop_clean hs 0 hclean
  have herr : (hs.map SubHandlerBehavior.invokeErr).filterMap id =
      hs.filterMap SubHandlerBehavior.invokeErr := by
    rw [List.filterMap_map]; rfl
  simp only [createSubHandler, hct, if_true, hloop, herr, List.range_eq_range']
  cases hfm : hs.filterMap SubHandlerBehavior.invokeErr with
  | nil => simp [hfm]
  | cons e es =>
    refine ⟨by simp [hfm], by simp [hfm], ?_⟩
    intro e' es' heq
    injection heq with h1 h2
    subst h1
    subst h2
    simp [subscriberCombinedError]

theorem dispatch_error_aggregation_witness :
    (createSubHandler ["application/json"] [("Content-Type", "application/json")]
      [⟨none, none, some "audit store unreachable"⟩, ⟨none, none, none⟩]).1 =
        List.range 2 ∧
    ((createSubHandler ["application/json"] [("Content-Type", "application/json")]
      [⟨none, none, some "audit store unreachable"⟩, ⟨none, none, none⟩]).2 = none ↔
      ([⟨none, none, some "audit store unreachable"⟩,
        (⟨none, none, none⟩ : SubHandlerBehavior)].filterMap SubHandlerBehavior.invokeErr = [])) ∧
    (∀ e es, ([⟨none, none, some "audit store unreachable"⟩,
        (⟨none, none, none⟩ : SubHandlerBehavior)].filterMap SubHandlerBehavior.invokeErr = e :: es) →
      (createSubHandler ["application/json"] [("Content-Type", "application/json")]
        [⟨none, none, some "audit store unreachable"⟩, ⟨none, none, none⟩]).2 =
          some ("subscriber error: " ++ String.intercalate "\n" (e :: es))) :=
  dispatch_error_aggregation _ _ _ (by decide) (by decide)

/-- Claim C6, as stated, is false: a decode failure for one handler aborts the
whole dispatch, not just that handler.  Concretely, with two handlers where
the first one's `ReadHeader` fails, the closure returns the decode error
itself and no handler at all is invoked — in particular the second, healthy
handler is neither decoded nor invoked, contradicting "the other N-1 handlers
are still decoded and invoked". -/
theorem decode_abort_cex :
    createSubHandler ["application/json"] [("Content-Type", "application/json")]
      [⟨some "bad header frame", none, none⟩, ⟨none, none, none⟩] =
      ([], some "bad header frame") ∧
    1 ∉ (createSubHandler ["application/json"] [("Content-Type", "application/json")]
      [⟨some "bad header frame", none, none⟩, ⟨none, none, none⟩]).1 := by
  constructor
  · rfl
  · decide

/-- Claim C6 amended: a failure of `ReadHeader` or `ReadBody` while decoding
for one handler aborts the entire dispatch.  The closure returns that decode
error; the handlers before the failing one (in loop order) have already been
invoked, while the failing handler and every later one are not invoked. -/
theorem decode_failure_aborts_dispatch (codecs : List String)
    (hdr : List (String × String)) (pre post : List SubHandlerBehavior)
    (bad : SubHandlerBehavior) (e : String)
    (hct : codecs.contains (headerGet hdr "Content-Type") = true)
    (hpre : ∀ h ∈ pre, h.readHeaderErr = none ∧ h.readBodyErr = none)
    (hbad : bad.readHeaderErr = some e ∨ (bad.readHeaderErr = none ∧ bad.readBodyErr = some e)) :
    createSubHandler codecs hdr (pre ++ bad :: post) =
      (List.range pre.length, some e) := by
  have hloop := dispatchLoop_abort pre bad post e 0 hpre hbad
  simp only [createSubHandler, hct, if_true, hloop, List.range_eq_range']

theorem decode_failure_aborts_dispatch_witness :
    createSubHandler ["application/json"] [("Content-Type", "application/json")]
      ([⟨none, none, none⟩] ++ ⟨none, some "unmarshal failure", none⟩ ::
        [⟨none, none, some "never runs"⟩]) =
      (List.range 1, some "unmarshal failure") :=
  decode_failure_aborts_dispatch _ _ _ _ _ _ (by decide) (by decide) (by decide)

/-! ## Reflected handler shapes and `validateSubscriber`

The subscriber file inspects the registered value with `reflect`: a bare
function, or a receiver value whose exported methods are the handlers.  Only
the features the source reads are modelled: parameter lists, result lists,
type names and package paths (with pointer indirection, which
`isExportedOrBuiltinType` strips). -/

inductive GoType where
  | ptr (elem : GoType)
  | named (nm : String) (pkgPath : String)
deriving DecidableEq

/-- `reflect.Type.Name()`: empty for unnamed (pointer) types. -/
def typeName : GoType → String
  | GoType.ptr _ => ""
  | GoType.named nm _ => nm

/-- `reflect.Type.PkgPath()`: empty for unnamed and builtin types. -/
def typePkgPath : GoType → String
  | GoType.ptr _ => ""
  | GoType.named _ p => p

/-- The `for t.Kind() == reflect.Ptr { t = t.Elem() }` loop. -/
def baseType : GoType → GoType
  | GoType.ptr t => baseType t
  | t => t

/-- Rendering of a type for the `%v` verbs in the validation messages. -/
def typeString : GoType → String
  | GoType.ptr t => "*" ++ typeString t
  | GoType.named nm p => if p == "" then nm else p ++ "." ++ nm

/-- `isExported`: is the first rune of the name upper case?  (Restricted to
ASCII names here; `unicode.IsUpper(utf8.RuneError) = false` covers `""`.) -/
def isExported (nm : String) : Bool :=
  match nm.data with
  | [] => false
  | c :: _ => c.isUpper

/-- `isExportedOrBuiltinType`: strip pointers, then exported name or empty
package path. -/
def isExportedOrBuiltinType (t : GoType) : Bool :=
  isExported (typeName (baseType t)) || typePkgPath (baseType t) == ""

/-- `typeOfError`: the builtin `error` interface type. -/
def typeOfError : GoType := GoType.named "error" ""

/-- The `subSig` constant. -/
def subSig : String := "func(context.Context, interface\x7b\x7d) error"

/-- One method of a non-function subscriber, as seen through `reflect`:
`ins` includes the receiver at index 0. -/
structure MethodSpec where
  nm : String
  ins : List GoType
  outs : List GoType
deriving DecidableEq

/-- The reflected shape of a registered subscriber value: a bare function, or
a receiver (named `recvName`) with its method set. -/
inductive SubKind where
  | fn (ins : List GoType) (outs : List GoType)
  | methodRecv (recvName : String) (methods : List MethodSpec)
deriving DecidableEq

/-- The `for m := 0; m < typ.NumMethod(); m++` loop of `validateSubscriber`:
each method must take exactly receiver+context+payload, with an
exported-or-builtin payload and a single `error` result. -/
def validateMethods (recvName : String) : List MethodSpec → Option String
  | [] => none
  | m :: rest =>
    match m.ins with
    | [_recv, _ctx, argType] =>
      if !isExportedOrBuiltinType argType then
        some (recvName ++ " argument type not exported: " ++ typeString argType)
      else if m.outs.length ≠ 1 then
        some ("subscriber " ++ recvName ++ "." ++ m.nm ++ " has wrong number of outs: " ++
          toString m.outs.length ++ " require signature " ++ subSig)
      else
        match m.outs with
        | [rt] =>
          if rt == typeOfError then validateMethods recvName rest
          else some ("subscriber " ++ recvName ++ "." ++ m.nm ++ " returns " ++
            typeString rt ++ " not error")
        | _ => validateMethods recvName rest
    | _ =>
      some ("subscriber " ++ recvName ++ "." ++ m.nm ++ " takes wrong number of args: " ++
        toString m.ins.length ++ " required signature " ++ subSig)

/-- `validateSubscriber`: `none` means valid.  A function subscriber must
take exactly two parameters (`case 2` of the `switch`, context then payload)
and return exactly one `error`; every deviation yields a descriptive error. -/
def validateSubscriber (s : SubKind) : Option String :=
  match s with
  | SubKind.fn ins outs =>
    match ins with
    | [_ctx, argType] =>
      if !isExportedOrBuiltinType argType then
        some ("subscriber Func argument type not exported: " ++ typeString argType)
      else if outs.length ≠ 1 then
        some ("subscriber Func has wrong number of outs: " ++ toString outs.length ++
          " require signature " ++ subSig)
      else
        match outs with
        | [rt] =>
          if rt == typeOfError then none
          else some ("subscriber Func returns " ++ typeString rt ++ " not error")
        | _ => none
    | _ =>
      some ("subscriber Func takes wrong number of args: " ++ toString ins.length ++
        " required signature " ++ subSig)
  | SubKind.methodRecv recvName ms => validateMethods recvName ms

/-! ## `newSubscriber` and the subscriber value -/

/-- The `handler` struct: optional context parameter type and request
(payload) type, as extracted by `newSubscriber`'s `switch` on the parameter
count (`nil` fields when the shape fits no case). -/
structure handler where
  ctxType : Option GoType
  reqType : Option GoType
deriving DecidableEq

/-- A `registry.Endpoint` as built by this package: name plus metadata (the
`Request` shape extracted by `registry.ExtractSubValue` is external and not
modelled). -/
structure Endpoint where
  nm : String
  metadata : List (String × String)
deriving DecidableEq

/-- `server.SubscriberOptions` fields read by this package.  `hasContext`
models `Options().Context != nil`. -/
structure SubscriberOptions where
  autoAck : Bool
  queue : String
  internal : Bool
  hasContext : Bool
deriving DecidableEq

/-- The handler list built by `newSubscriber`. -/
def newSubscriberHandlers : SubKind → List handler
  | SubKind.fn ins _ =>
    [match ins with
     | [a] => { ctxType := none, reqType := some a }
     | [a, b] => { ctxType := some a, reqType := some b }
     | _ => { ctxType := none, reqType := none }]
  | SubKind.methodRecv _ ms =>
    ms.map fun m =>
      match m.ins with
      | [_recv, a] => { ctxType := none, reqType := some a }
      | [_recv, a, b] => { ctxType := some a, reqType := some b }
      | _ => { ctxType := none, reqType := none }

/-- The endpoint list built by `newSubscriber`. -/
def newSubscriberEndpoints (topic : String) : SubKind → List Endpoint
  | SubKind.fn _ _ =>
    [{ nm := "Func", metadata := [("topic", topic), ("subscriber", "true")] }]
  | SubKind.methodRecv recvName ms =>
    ms.map fun m =>
      { nm := recvName ++ "." ++ m.nm, metadata := [("topic", topic), ("subscriber", "true")] }

/-- The `tcpSubscriber` struct.  `id` models the pointer identity of the
allocated value: the `tcpServer.subscribers` map is keyed by `*tcpSubscriber`. -/
structure TcpSubscriber where
  id : Nat
  topic : String
  subKind : SubKind
  handlers : List handler
  endpoints : List Endpoint
  opts : SubscriberOptions
deriving DecidableEq

/-- `newSubscriber`: apply the option closures over the `AutoAck: true`
default, extract handlers and endpoints from the reflected shape.  `id` is
the identity of the freshly allocated value. -/
def newSubscriber (id : Nat) (topic : String) (sub : SubKind)
    (opts : List (SubscriberOptions → SubscriberOptions)) : TcpSubscriber :=
  let options := opts.foldl (fun acc o => o acc)
    { autoAck := true, queue := "", internal := false, hasContext := false }
  { id := id, topic := topic, subKind := sub,
    handlers := newSubscriberHandlers sub,
    endpoints := newSubscriberEndpoints topic sub,
    opts := options }

/-! ## The `tcpServer` lifecycle state (`tcp.go`)

The mutable fields of `tcpServer` that `Subscribe` / `Register` /
`Deregister` and the heartbeat loop touch: the `subscribers` map (an
association list keyed by subscriber identity, values are the broker
subscription handles armed for it), the `registered` flag, the cached
register service `rsvc`, and the endpoints of the request handler `hd`.
The external register directory and broker are modelled by environments
carrying the outcome of each external call. -/

/-- A cached `register.Service`: only its endpoint list is relevant here. -/
structure Service where
  endpoints : List Endpoint
deriving DecidableEq

structure ServerState where
  subscribers : List (TcpSubscriber × List Nat)
  registered : Bool
  rsvc : Option Service
  hdEps : List Endpoint
deriving DecidableEq

/-- The `server.Subscriber` interface value passed to `Subscribe`: either a
`*tcpSubscriber` produced by this package's `NewSubscriber`, or a value of
any other concrete type (the type assertion fails). -/
inductive ServerSubscriberValue where
  | tcp (s : TcpSubscriber)
  | foreign
deriving DecidableEq

/-- `tcpServer.Subscribe`: type-assert, reject an empty handler list,
validate, reject a duplicate identity, then store the subscriber with no
broker handles.  (The duplicate error prints the server value `h`, whose
`String()` is `"tcp"`.) -/
def subscribe (st : ServerState) (sb : ServerSubscriberValue) : ServerState × Option String :=
  match sb with
  | ServerSubscriberValue.foreign =>
    (st, some "invalid subscriber: expected *tcpSubscriber")
  | ServerSubscriberValue.tcp sub =>
    if sub.handlers.length == 0 then
      (st, some "invalid subscriber: no handler functions")
    else
      match validateSubscriber sub.subKind with
      | some e => (st, some e)
      | none =>
        if st.subscribers.any (fun p => p.1.id == sub.id) then
          (st, some "subscriber tcp already exists")
        else
          ({ st with subscribers := st.subscribers ++ [(sub, [])] }, none)

/-- Outcomes of the external calls a single `Register` performs:
`server.NewRegisterService`, `server.DefaultRegisterFunc`, and
`config.Broker.Subscribe` for each subscriber identity. -/
structure RegisterEnv where
  newServiceOk : Bool
  advertiseOk : Bool
  brokerSubscribe : Nat → Except String Nat

/-- Outcomes of the external calls of `Deregister`. -/
structure DeregisterEnv where
  newServiceOk : Bool
  withdrawOk : Bool

/-- Go's lexicographic string comparison `x <= y`, on the character lists
(identical to the byte-wise comparison for the ASCII topics involved). -/
def charListLe : List Char → List Char → Bool
  | [], _ => true
  | _ :: _, [] => false
  | a :: as, b :: bs =>
    if a < b then true else if b < a then false else charListLe as bs

theorem charListLe_total : ∀ x y : List Char,
    charListLe x y = true ∨ charListLe y x = true
  | [], _ => Or.inl rfl
  | _ :: _, [] => Or.inr rfl
  | a :: as, b :: bs => by
    by_cases hab : a < b
    · left; simp [charListLe, hab]
    · by_cases hba : b < a
      · right; simp [charListLe, hba]
      · rcases charListLe_total as bs with h | h
        · left; simp [charListLe, hab, hba, h]
        · right; simp [charListLe, hab, hba, h]

theorem charListLe_trans : ∀ x y z : List Char,
    charListLe x y = true → charListLe y z = true → charListLe x z = true
  | [], _, _, _, _ => rfl
  | _ :: _, [], _, hxy, _ => by simp [charListLe] at hxy
  | _ :: _, _ :: _, [], _, hyz => by simp [charListLe] at hyz
  | a :: as, b :: bs, c :: cs, hxy, hyz => by
    simp only [charListLe] at hxy hyz ⊢
    by_cases hab : a < b
    · by_cases hbc : b < c
      · simp [lt_trans hab hbc]
      · rw [if_neg hbc] at hyz
        by_cases hcb : c < b
        · rw [if_pos hcb] at hyz
          exact absurd hyz (by simp)
        · have hbceq : b = c := le_antisymm (not_lt.mp hcb) (not_lt.mp hbc)
          subst hbceq
          simp [hab]
    · rw [if_neg hab] at hxy
      by_cases hba : b < a
      · rw [if_pos hba] at hxy
        exact absurd hxy (by simp)
      · have habeq : a = b := le_antisymm (not_lt.mp hba) (not_lt.mp hab)
        subst habeq
        rw [if_neg (lt_irrefl a)] at hxy
        by_cases hac : a < c
        · simp [hac]
        · rw [if_neg hac] at hyz ⊢
          by_cases hca : c < a
          · rw [if_pos hca] at hyz
            exact absurd hyz (by simp)
          · rw [if_neg hca] at hyz ⊢
            exact charListLe_trans as bs cs hxy hyz

theorem charListLe_antisymm : ∀ x y : List Char,
    charListLe x y = true → charListLe y x = true → x = y
  | [], [], _, _ => rfl
  | [], _ :: _, _, hyx => by simp [charListLe] at hyx
  | _ :: _, [], hxy, _ => by simp [charListLe] at hxy
  | a :: as, b :: bs, hxy, hyx => by
    simp only [charListLe] at hxy hyx
    by_cases hab : a < b
    · rw [if_neg (lt_asymm hab), if_pos hab] at hyx
      exact absurd hyx (by simp)
    · rw [if_neg hab] at hxy
      by_cases hba : b < a
      · rw [if_pos hba] at hxy
        exact absurd hxy (by simp)
      · have habeq : a = b := le_antisymm (not_lt.mp hba) (not_lt.mp hab)
        subst habeq
        rw [if_neg (lt_irrefl a)] at hxy hyx
        rw [if_neg (lt_irrefl a)] at hyx
        rw [charListLe_antisymm as bs hxy hyx]

/-- `x <= y` on strings, as Go compares them. -/
def strLe (x y : String) : Prop := charListLe x.data y.data = true

theorem strLe_antisymm {x y : String} (h1 : strLe x y) (h2 : strLe y x) : x = y := by
  have h := charListLe_antisymm x.data y.data h1 h2
  cases x
  cases y
  simp_all

/-- The comparator of the `sort.Slice` call in `Register` (descending
topics), as a non-strict ordering. -/
def topicGE (a b : TcpSubscriber) : Prop := strLe b.topic a.topic

instance : DecidableRel topicGE := fun a b =>
  inferInstanceAs (Decidable (charListLe b.topic.data a.topic.data = true))

instance : IsTotal TcpSubscriber topicGE :=
  ⟨fun a b => charListLe_total b.topic.data a.topic.data⟩

instance : IsTrans TcpSubscriber topicGE :=
  ⟨fun a b c hab hbc => charListLe_trans c.topic.data b.topic.data a.topic.data hbc hab⟩

/-- `sort.Slice(subscriberList, func(i, j int) bool ... topic > topic)`. -/
def sortByTopicDesc (l : List TcpSubscriber) : List TcpSubscriber :=
  List.insertionSort topicGE l

/-- Lines 139-153 of `tcp.go`: the advertised endpoint list is the request
handler's endpoints followed by the endpoints of every non-internal
subscriber, ordered by topic descending.  The argument `subs` is the
iteration order of the `subscribers` map. -/
def buildEndpoints (hdEps : List Endpoint) (subs : List TcpSubscriber) : List Endpoint :=
  hdEps ++ ((sortByTopicDesc (subs.filter fun e => !e.opts.internal)).map
    TcpSubscriber.endpoints).flatten

/-- The `for sb := range h.subscribers` arming loop of `Register`: subscribe
each subscriber to the broker; on the first failure return the error, leaving
the already-armed entries updated and the rest untouched.  On success each
entry's handle list becomes the one returned handle. -/
def armLoop (env : RegisterEnv) :
    List (TcpSubscriber × List Nat) → List (TcpSubscriber × List Nat) × Option String
  | [] => ([], none)
  | (sb, bs) :: rest =>
    match env.brokerSubscribe sb.id with
    | Except.error e => ((sb, bs) :: rest, some e)
    | Except.ok handle =>
      let r := armLoop env rest
      ((sb, [handle]) :: r.1, r.2)

/-- `tcpServer.Register`.  Warm path: a cached `rsvc` is re-advertised and
nothing else happens — in particular `registered` is not touched.  Cold path:
build the service from the registry snapshot, advertise it, and, only if not
already registered, arm every subscriber and set `registered`/`rsvc`. -/
def register (env : RegisterEnv) (st : ServerState) : ServerState × Option String :=
  match st.rsvc with
  | some _ =>
    if env.advertiseOk then (st, none) else (st, some "registry register error")
  | none =>
    if !env.newServiceOk then (st, some "new register service error")
    else
      let service : Service := { endpoints := buildEndpoints st.hdEps (st.subscribers.map Prod.fst) }
      let registered := st.registered
      if !env.advertiseOk then (st, some "registry register error")
      else if registered then (st, none)
      else
        let armed := armLoop env st.subscribers
        match armed.2 with
        | some e => ({ st with subscribers := armed.1 }, some e)
        | none =>
          ({ st with subscribers := armed.1, registered := true, rsvc := some service }, none)

/-- `tcpServer.Deregister`: build a fresh service, withdraw it from the
directory unconditionally, then — only if `registered` was true — flip the
flag and drop every broker handle (unsubscribe failures are only logged).
Note: the cached `rsvc` is never cleared. -/
def deregister (env : DeregisterEnv) (st : ServerState) : ServerState × Option String :=
  if !env.newServiceOk then (st, some "new register service error")
  else if !env.withdrawOk then (st, some "registry deregister error")
  else if !st.registered then (st, none)
  else
    ({ st with registered := false
               subscribers := st.subscribers.map (fun p => (p.1, [])) }, none)

/-- The operations a heartbeat tick attempts, in order. -/
inductive HeartbeatOp where
  | deregisterOp
  | registerOp
deriving DecidableEq

/-- One `<-t.C` tick of the loop spawned by `Start` (lines 349-375 of
`tcp.go`).  `healthErr` is whether `opts.RegisterCheck` returned an error.
Unhealthy while registered: `Deregister`, then fall through to `Register`
(both errors only logged).  Unhealthy while unregistered: `continue`.
Healthy: `Register`. -/
def heartbeatTick (healthErr : Bool) (denv : DeregisterEnv) (renv : RegisterEnv)
    (st : ServerState) : ServerState × List HeartbeatOp :=
  let registered := st.registered
  if healthErr && registered then
    let st1 := (deregister denv st).1
    let st2 := (register renv st1).1
    (st2, [HeartbeatOp.deregisterOp, HeartbeatOp.registerOp])
  else if healthErr && !registered then
    (st, [])
  else
    ((register renv st).1, [HeartbeatOp.registerOp])

/-- States reachable from the freshly constructed server (`NewServer`:
empty subscriber map, not registered, no cached service) by the modelled
operations, for any outcomes of the external collaborators. -/
inductive Reachable : ServerState → Prop where
  | init (hdEps : List Endpoint) :
      Reachable { subscribers := [], registered := false, rsvc := none, hdEps := hdEps }
  | handleStep (st : ServerState) (hdEps : List Endpoint) :
      Reachable st → Reachable { st with hdEps := hdEps }
  | subscribeStep (st : ServerState) (v : ServerSubscriberValue) :
      Reachable st → Reachable (subscribe st v).1
  | registerStep (st : ServerState) (env : RegisterEnv) :
      Reachable st → Reachable (register env st).1
  | deregisterStep (st : ServerState) (env : DeregisterEnv) :
      Reachable st → Reachable (deregister env st).1
  | tickStep (st : ServerState) (b : Bool) (denv : DeregisterEnv) (renv : RegisterEnv) :
      Reachable st → Reachable (heartbeatTick b denv renv st).1

/-! ### Concrete fixtures used by witnesses and counterexamples -/

/-- `context.Context`. -/
def goCtxType : GoType := GoType.named "Context" "context"

/-- An exported payload type. -/
def goPayloadType : GoType := GoType.named "OrderCreated" "app/types"

/-- A canonical valid function subscriber: `func(context.Context, *OrderCreated) error`. -/
def sub0 : TcpSubscriber :=
  newSubscriber 0 "orders" (SubKind.fn [goCtxType, GoType.ptr goPayloadType] [typeOfError]) []

/-- The state of a freshly constructed server. -/
def stInit : ServerState :=
  { subscribers := [], registered := false, rsvc := none, hdEps := [] }

/-- An environment in which every external call succeeds. -/
def envOK : RegisterEnv :=
  { newServiceOk := true, advertiseOk := true, brokerSubscribe := fun _ => Except.ok 7 }

def denvOK : DeregisterEnv := { newServiceOk := true, withdrawOk := true }

/-- After `Subscribe(sub0)`. -/
def stSub : ServerState := (subscribe stInit (ServerSubscriberValue.tcp sub0)).1

/-- After a first successful `Register`. -/
def stReg1 : ServerState := (register envOK stSub).1

/-- After a subsequent successful `Deregister`. -/
def stDereg : ServerState := (deregister denvOK stReg1).1

/-! ## Subscribe: gatekeeping and duplicate rejection -/

/-- Claim C9: a first successful `Subscribe` of a subscription object stores
it; a second `Subscribe` with the identical object is rejected with an error
and leaves the registry unchanged, still holding exactly one entry for that
object's identity. -/
theorem duplicate_subscribe_rejected (st st1 : ServerState) (sub : TcpSubscriber)
    (h : subscribe st (ServerSubscriberValue.tcp sub) = (st1, none)) :
    subscribe st1 (ServerSubscriberValue.tcp sub) =
      (st1, some "subscriber tcp already exists") ∧
    (st1.subscribers.filter (fun p => p.1.id == sub.id)).length = 1 := by
  simp only [subscribe] at h
  by_cases hlen : (sub.handlers.length == 0) = true
  · rw [if_pos hlen] at h
    simp at h
  · rw [if_neg hlen] at h
    cases hval : validateSubscriber sub.subKind with
    | some e => rw [hval] at h; simp at h
    | none =>
      rw [hval] at h
      by_cases hdup : st.subscribers.any (fun p => p.1.id == sub.id) = true
      · rw [if_pos hdup] at h
        simp at h
      · rw [if_neg hdup] at h
        rw [Prod.mk.injEq] at h
        have hst1 : st1 = { st with subscribers := st.subscribers ++ [(sub, [])] } :=
          h.1.symm
        subst hst1
        have hnone : ∀ p ∈ st.subscribers, ¬(p.1.id == sub.id) = true := by
          intro p hp hcontra
          exact hdup (List.any_eq_true.mpr ⟨p, hp, hcontra⟩)
        constructor
        · simp only [subscribe]
          rw [if_neg hlen]
          simp only [hval]
          have hany : ((st.subscribers ++ [(sub, [])]).any
              (fun p => p.1.id == sub.id)) = true := by
            simp
          rw [if_pos hany]
        · simp only [List.filter_append]
          have h0 : st.subscribers.filter (fun p => p.1.id == sub.id) = [] :=
            List.filter_eq_nil_iff.mpr hnone
          simp [h0]

theorem duplicate_subscribe_rejected_witness :
    subscribe stSub (ServerSubscriberValue.tcp sub0) =
      (stSub, some "subscriber tcp already exists") ∧
    (stSub.subscribers.filter (fun p => p.1.id == sub0.id)).length = 1 :=
  duplicate_subscribe_rejected stInit stSub sub0 (by decide)

/-- Claim C10: `Subscribe` rejects — before validating and before touching
the registry — every value whose concrete type is not `*tcpSubscriber` and
every subscriber with an empty handler list; no failing call mutates the
state, and every successful call appends exactly one `*tcpSubscriber`-typed
entry (with no broker handles) to the registry. -/
theorem subscribe_gatekeeping (st : ServerState) :
    (subscribe st ServerSubscriberValue.foreign =
      (st, some "invalid subscriber: expected *tcpSubscriber")) ∧
    (∀ sub : TcpSubscriber, sub.handlers = [] →
      subscribe st (ServerSubscriberValue.tcp sub) =
        (st, some "invalid subscriber: no handler functions")) ∧
    (∀ v st1 e, subscribe st v = (st1, some e) → st1 = st) ∧
    (∀ v st1, subscribe st v = (st1, none) →
      ∃ sub, v = ServerSubscriberValue.tcp sub ∧ sub.handlers ≠ [] ∧
        validateSubscriber sub.subKind = none ∧
        st1.subscribers = st.subscribers ++ [(sub, [])]) := by
  refine ⟨rfl, ?_, ?_, ?_⟩
  · intro sub hemp
    simp [subscribe, hemp]
  · intro v st1 e h
    cases v with
    | foreign =>
      simp only [subscribe, Prod.mk.injEq] at h
      exact h.1.symm
    | tcp sub =>
      simp only [subscribe] at h
      by_cases hlen : (sub.handlers.length == 0) = true
      · rw [if_pos hlen, Prod.mk.injEq] at h
        exact h.1.symm
      · rw [if_neg hlen] at h
        cases hval : validateSubscriber sub.subKind with
        | some e' =>
          rw [hval, Prod.mk.injEq] at h
          exact h.1.symm
        | none =>
          rw [hval] at h
          by_cases hdup : st.subscribers.any (fun p => p.1.id == sub.id) = true
          · rw [if_pos hdup, Prod.mk.injEq] at h
            exact h.1.symm
          · rw [if_neg hdup] at h
            simp at h
  · intro v st1 h
    cases v with
    | foreign => simp [subscribe] at h
    | tcp sub =>
      refine ⟨sub, rfl, ?_⟩
      simp only [subscribe] at h
      by_cases hlen : (sub.handlers.length == 0) = true
      · rw [if_pos hlen] at h
        simp at h
      · rw [if_neg hlen] at h
        cases hval : validateSubscriber sub.subKind with
        | some e' => rw [hval] at h; simp at h
        | none =>
          rw [hval] at h
          by_cases hdup : st.subscribers.any (fun p => p.1.id == sub.id) = true
          · rw [if_pos hdup] at h
            simp at h
          · rw [if_neg hdup, Prod.mk.injEq] at h
            refine ⟨?_, rfl, ?_⟩
            · intro hempty
              rw [hempty] at hlen
              simp at hlen
            · rw [← h.1]

theorem subscribe_gatekeeping_witness :
    (subscribe stInit ServerSubscriberValue.foreign =
      (stInit, some "invalid subscriber: expected *tcpSubscriber")) ∧
    (subscribe stInit (ServerSubscriberValue.tcp
        (newSubscriber 5 "t" (SubKind.methodRecv "Empty" []) [])) =
      (stInit, some "invalid subscriber: no handler functions")) :=
  ⟨(subscribe_gatekeeping stInit).1,
   (subscribe_gatekeeping stInit).2.1 _ rfl⟩

/-! ## Register / Deregister: state invariants -/

/-- The invariant maintained by the lifecycle operations: a registered
server holds a cached service record, and no subscriber ever holds more
than one broker handle. -/
def StateInv (st : ServerState) : Prop :=
  (st.registered = true → st.rsvc ≠ none) ∧ (∀ p ∈ st.subscribers, p.2.length ≤ 1)

theorem armLoop_bindings (env : RegisterEnv) :
    ∀ l : List (TcpSubscriber × List Nat), (∀ p ∈ l, p.2.length ≤ 1) →
      ∀ p ∈ (armLoop env l).1, p.2.length ≤ 1
  | [], _, p, hp => by simp [armLoop] at hp
  | (sb, bs) :: rest, hl, p, hp => by
    simp only [armLoop] at hp
    cases henv : env.brokerSubscribe sb.id with
    | error e =>
      rw [henv] at hp
      exact hl p hp
    | ok handle =>
      rw [henv] at hp
      rcases List.mem_cons.mp hp with hp | hp
      · subst hp; simp
      · exact armLoop_bindings env rest
          (fun q hq => hl q (List.mem_cons_of_mem _ hq)) p hp

/-- `Register` with a cached service record only re-advertises it: the state
is returned untouched and the result is the directory's answer. -/
theorem register_warm (env : RegisterEnv) (st : ServerState) (svc : Service)
    (h : st.rsvc = some svc) :
    register env st = (st, if env.advertiseOk then none else some "registry register error") := by
  cases hadv : env.advertiseOk <;> simp [register, h, hadv]

/-- Any cold `Register` that returns no error leaves `registered = true`. -/
theorem register_cold_success (env : RegisterEnv) (st : ServerState)
    (h : st.rsvc = none) (hsucc : (register env st).2 = none) :
    ((register env st).1).registered = true := by
  simp only [register, h] at hsucc ⊢
  cases hns : env.newServiceOk with
  | false => rw [hns] at hsucc; simp at hsucc
  | true =>
    rw [hns] at hsucc
    simp only [hns, Bool.not_true, Bool.false_eq_true, if_false] at hsucc ⊢
    cases hadv : env.advertiseOk with
    | false => rw [hadv] at hsucc; simp at hsucc
    | true =>
      rw [hadv] at hsucc
      simp only [hadv, Bool.not_true, Bool.false_eq_true, if_false] at hsucc ⊢
      cases hreg : st.registered with
      | true => simp [hreg]
      | false =>
        rw [hreg] at hsucc
        simp only [hreg, Bool.false_eq_true, if_false] at hsucc ⊢
        cases harm : (armLoop env st.subscribers).2 with
        | some e => rw [harm] at hsucc; simp at hsucc
        | none => rfl

theorem register_preserves_inv (env : RegisterEnv) (st : ServerState)
    (h : StateInv st) : StateInv (register env st).1 := by
  obtain ⟨h1, h2⟩ := h
  cases hr : st.rsvc with
  | some svc => rw [register_warm env st svc hr]; exact ⟨h1, h2⟩
  | none =>
    simp only [register, hr]
    cases hns : env.newServiceOk with
    | false => simp only [Bool.not_false, if_true]; exact ⟨h1, h2⟩
    | true =>
      simp only [Bool.not_true, Bool.false_eq_true, if_false]
      cases hadv : env.advertiseOk with
      | false => simp only [Bool.not_false, if_true]; exact ⟨h1, h2⟩
      | true =>
        simp only [Bool.not_true, Bool.false_eq_true, if_false]
        cases hreg : st.registered with
        | true => simp only [if_true]; exact ⟨h1, h2⟩
        | false =>
          simp only [Bool.false_eq_true, if_false]
          cases harm : (armLoop env st.subscribers).2 with
          | some e =>
            refine ⟨?_, armLoop_bindings env st.subscribers h2⟩
            intro hcontra
            simp at hcontra
          | none =>
            exact ⟨fun _ => by simp, armLoop_bindings env st.subscribers h2⟩

/-- `Deregister` never clears the cached service record. -/
theorem deregister_rsvc (env : DeregisterEnv) (st : ServerState) :
    ((deregister env st).1).rsvc = st.rsvc := by
  simp only [deregister]
  by_cases hns : env.newServiceOk
  · by_cases hw : env.withdrawOk
    · by_cases hreg : st.registered = true
      · simp [hns, hw, hreg]
      · simp only [Bool.not_eq_true] at hreg
        simp [hns, hw, hreg]
    · simp [hns, hw]
  · simp [hns]

theorem deregister_preserves_inv (env : DeregisterEnv) (st : ServerState)
    (h : StateInv st) : StateInv (deregister env st).1 := by
  obtain ⟨h1, h2⟩ := h
  simp only [deregister]
  by_cases hns : env.newServiceOk
  · by_cases hw : env.withdrawOk
    · by_cases hreg : st.registered = true
      · simp only [hns, hw, hreg, Bool.not_true, Bool.false_eq_true, if_false, if_true]
        refine ⟨by simp, ?_⟩
        intro p hp
        rcases List.mem_map.mp hp with ⟨q, _, hq⟩
        rw [← hq]
        simp
      · simp only [Bool.not_eq_true] at hreg
        simp [hns, hw, hreg]
        exact ⟨h1, h2⟩
    · simp [hns, hw]; exact ⟨h1, h2⟩
  · simp [hns]; exact ⟨h1, h2⟩

theorem tick_preserves_inv (b : Bool) (denv : DeregisterEnv) (renv : RegisterEnv)
    (st : ServerState) (h : StateInv st) : StateInv (heartbeatTick b denv renv st).1 := by
  simp only [heartbeatTick]
  by_cases hb : (b && st.registered) = true
  · simp only [hb, if_true]
    exact register_preserves_inv renv _ (deregister_preserves_inv denv st h)
  · simp only [hb, Bool.false_eq_true, if_false]
    by_cases hb2 : (b && !st.registered) = true
    · simp only [hb2, if_true]; exact h
    · simp only [hb2, Bool.false_eq_true, if_false]
      exact register_preserves_inv renv st h

theorem reachable_inv {st : ServerState} (h : Reachable st) : StateInv st := by
  induction h with
  | init hdEps => exact ⟨by simp, by simp⟩
  | handleStep st hdEps _ ih => exact ⟨ih.1, ih.2⟩
  | subscribeStep st v _ ih =>
    obtain ⟨h1, h2⟩ := ih
    cases v with
    | foreign => exact ⟨h1, h2⟩
    | tcp sub =>
      simp only [subscribe]
      by_cases hlen : (sub.handlers.length == 0) = true
      · simp only [hlen, if_true]; exact ⟨h1, h2⟩
      · simp only [hlen, Bool.false_eq_true, if_false]
        cases hval : validateSubscriber sub.subKind with
        | some e => exact ⟨h1, h2⟩
        | none =>
          by_cases hdup : (st.subscribers.any fun p => p.1.id == sub.id) = true
          · simp only [hdup, if_true]; exact ⟨h1, h2⟩
          · simp only [hdup, Bool.false_eq_true, if_false]
            refine ⟨h1, ?_⟩
            intro p hp
            rcases List.mem_append.mp hp with hp | hp
            · exact h2 p hp
            · rw [List.mem_singleton.mp hp]
              simp
  | registerStep st env _ ih => exact register_preserves_inv env st ih
  | deregisterStep st env _ ih => exact deregister_preserves_inv env st ih
  | tickStep st b denv renv _ ih => exact tick_preserves_inv b denv renv st ih

/-! ## Claims C2 and C3 -/

/-- Claim C2, as stated, is false on the code: after one successful
`Register` and one successful `Deregister` (which leaves the cached `rsvc`
in place), the next `Register` returns no error yet leaves
`registered = false` and re-arms nothing — the stored subscriber still has
no broker handle. -/
theorem register_after_deregister_cex :
    (register envOK stDereg).2 = none ∧
    ((register envOK stDereg).1).registered = false ∧
    ((register envOK stDereg).1).subscribers = [(sub0, [])] := by
  refine ⟨?_, ?_, ?_⟩ <;> decide

/-- Claim C2 amended: a `Register` that returns without error sets
`registered = true` whenever no service record is cached at entry; but
`Deregister` preserves the cached record, so a later `Register` takes the
warm path, which returns the state — hence the `registered` flag and the
(empty) broker bindings — completely unchanged. -/
theorem register_registered_flag (env : RegisterEnv) (denv : DeregisterEnv)
    (st : ServerState) :
    (st.rsvc = none → (register env st).2 = none → ((register env st).1).registered = true) ∧
    (((deregister denv st).1).rsvc = st.rsvc) ∧
    (∀ svc, st.rsvc = some svc → (register env st).1 = st) :=
  ⟨fun h hsucc => register_cold_success env st h hsucc,
   deregister_rsvc denv st,
   fun svc h => by rw [register_warm env st svc h]⟩

theorem register_registered_flag_witness :
    (((register envOK stInit).1).registered = true) ∧
    (((deregister denvOK stReg1).1).rsvc = stReg1.rsvc) ∧
    ((register envOK stReg1).1 = stReg1) :=
  ⟨(register_registered_flag envOK denvOK stInit).1 rfl (by decide),
   (register_registered_flag envOK denvOK stReg1).2.1,
   (register_registered_flag envOK denvOK stReg1).2.2
     ⟨buildEndpoints [] [sub0]⟩ (by decide)⟩

/-- Claim C3: calling `Register` while the service is registered takes the
warm path — in any reachable registered state a service record is cached,
the call only re-advertises it (returning the directory's outcome), the
state (subscribers, bindings, cached record, endpoint list) is returned
unchanged, and no subscriber holds more than one broker binding. -/
theorem register_warm_idempotent (st : ServerState) (env : RegisterEnv)
    (hr : Reachable st) (hreg : st.registered = true) :
    (∃ svc, st.rsvc = some svc) ∧
    (register env st).1 = st ∧
    ((register env st).2 = if env.advertiseOk then none else some "registry register error") ∧
    (∀ p ∈ st.subscribers, p.2.length ≤ 1) := by
  have hinv := reachable_inv hr
  obtain ⟨h1, h2⟩ := hinv
  cases hrs : st.rsvc with
  | none => exact absurd hrs (h1 hreg)
  | some svc =>
    have hw := register_warm env st svc hrs
    exact ⟨⟨svc, rfl⟩, by rw [hw], by rw [hw], h2⟩

theorem register_warm_idempotent_witness :
    (∃ svc, stReg1.rsvc = some svc) ∧
    (register envOK stReg1).1 = stReg1 ∧
    ((register envOK stReg1).2 = if envOK.advertiseOk then none
      else some "registry register error") ∧
    (∀ p ∈ stReg1.subscribers, p.2.length ≤ 1) :=
  register_warm_idempotent stReg1 envOK
    (Reachable.registerStep stSub envOK
      (Reachable.subscribeStep stInit (ServerSubscriberValue.tcp sub0)
        (Reachable.init [])))
    (by decide)

/-! ## Claim C5: the heartbeat tick -/

/-- Claim C5, as stated, is false on the code: on a tick where the health
predicate fails while the service is registered, the loop attempts
`Deregister` and then falls through to attempt `Register` on the very same
tick (`stReg1` is a reachable registered state). -/
theorem heartbeat_fallthrough_cex :
    stReg1.registered = true ∧
    (heartbeatTick true denvOK envOK stReg1).2 =
      [HeartbeatOp.deregisterOp, HeartbeatOp.registerOp] ∧
    HeartbeatOp.registerOp ∈ (heartbeatTick true denvOK envOK stReg1).2 := by
  refine ⟨?_, ?_, ?_⟩ <;> decide

/-- Claim C5 amended: on a tick where the predicate fails while registered,
the loop attempts `Deregister` and then still attempts `Register` on the
same tick; `Register` is skipped only on ticks where the predicate fails
while the service is not registered (and `Deregister` is attempted only on
failing ticks while registered). -/
theorem heartbeat_tick_ops (b : Bool) (denv : DeregisterEnv) (renv : RegisterEnv)
    (st : ServerState) :
    (HeartbeatOp.registerOp ∈ (heartbeatTick b denv renv st).2 ↔
      (b = false ∨ st.registered = true)) ∧
    (HeartbeatOp.deregisterOp ∈ (heartbeatTick b denv renv st).2 ↔
      (b = true ∧ st.registered = true)) ∧
    (b = true → st.registered = false → heartbeatTick b denv renv st = (st, [])) ∧
    (b = true → st.registered = true →
      (heartbeatTick b denv renv st).1 = (register renv (deregister denv st).1).1) := by
  cases b <;> cases hreg : st.registered <;>
    simp [heartbeatTick, hreg]

theorem heartbeat_tick_ops_witness :
    (HeartbeatOp.registerOp ∈ (heartbeatTick true denvOK envOK stReg1).2 ↔
      (true = false ∨ stReg1.registered = true)) ∧
    (heartbeatTick true denvOK envOK stInit = (stInit, [])) ∧
    ((heartbeatTick true denvOK envOK stReg1).1 =
      (register envOK (deregister denvOK stReg1).1).1) :=
  ⟨(heartbeat_tick_ops true denvOK envOK stReg1).1,
   (heartbeat_tick_ops true denvOK envOK stInit).2.2.1 rfl (by decide),
   (heartbeat_tick_ops true denvOK envOK stReg1).2.2.2 rfl (by decide)⟩

/-! ## Claim C4: the accept-loop backoff (`serve` in `tcp.go`) -/

/-- The update of `tempDelay` on a transient accept failure: start at 5ms,
otherwise double, cap at 1s (durations in nanoseconds). -/
def nextTempDelay (tempDelay : Nat) : Nat :=
  let d := if tempDelay = 0 then 5000000 else tempDelay * 2
  if d > 1000000000 then 1000000000 else d

/-- Classification of one `ln.Accept()` round in `serve`: a successful
accept, an error classified temporary, a non-temporary (fatal) error, or an
error with the exit signal already raised. -/
inductive AcceptOutcome where
  | success
  | transientErr
  | fatalErr
  | exitSignal
deriving DecidableEq

/-- The sequence of backoff sleeps performed by `serve` over a sequence of
accept outcomes, starting from accumulated delay `d` (`serve` starts with
`var tempDelay time.Duration`, i.e. `0`).  A success spawns the connection
handler and loops without touching `tempDelay`; a transient error sleeps
for the updated delay and retries; a fatal error or a raised exit signal
ends the loop. -/
def serveDelays : List AcceptOutcome → Nat → List Nat
  | [], _ => []
  | AcceptOutcome.success :: rest, d => serveDelays rest d
  | AcceptOutcome.transientErr :: rest, d =>
    nextTempDelay d :: serveDelays rest (nextTempDelay d)
  | AcceptOutcome.fatalErr :: _, _ => []
  | AcceptOutcome.exitSignal :: _, _ => []

/-- Claim C4, as stated, is false on the code: `serve` never resets
`tempDelay` after a successful accept.  After one transient failure (5ms
sleep) and one success, the next transient failure sleeps 10ms, not the
initial 5ms. -/
theorem backoff_no_reset_cex :
    serveDelays [AcceptOutcome.transientErr, AcceptOutcome.success,
      AcceptOutcome.transientErr] 0 = [5000000, 10000000] ∧
    (10000000 : Nat) ≠ 5000000 := by
  refine ⟨?_, ?_⟩ <;> decide

theorem nextTempDelay_bounds (d : Nat) (h : d = 0 ∨ (5000000 ≤ d ∧ d ≤ 1000000000)) :
    5000000 ≤ nextTempDelay d ∧ nextTempDelay d ≤ 1000000000 ∧ d ≤ nextTempDelay d := by
  rcases h with h | ⟨h1, h2⟩
  · subst h; decide
  · have hne : d ≠ 0 := by omega
    simp only [nextTempDelay, hne, if_false]
    by_cases hcap : d * 2 > 1000000000
    · simp only [hcap, if_true]; omega
    · simp only [hcap, if_false]; omega

theorem serveDelays_chain : ∀ (outcomes : List AcceptOutcome) (d : Nat),
    (d = 0 ∨ (5000000 ≤ d ∧ d ≤ 1000000000)) →
    List.Chain' (· ≤ ·) (serveDelays outcomes d) ∧
    (∀ x ∈ serveDelays outcomes d, d ≤ x ∧ 5000000 ≤ x ∧ x ≤ 1000000000)
  | [], _, _ => by simp [serveDelays]
  | AcceptOutcome.success :: rest, d, hd => by
    simpa [serveDelays] using serveDelays_chain rest d hd
  | AcceptOutcome.transientErr :: rest, d, hd => by
    obtain ⟨hb1, hb2, hb3⟩ := nextTempDelay_bounds d hd
    obtain ⟨hc, hm⟩ := serveDelays_chain rest (nextTempDelay d) (Or.inr ⟨hb1, hb2⟩)
    refine ⟨?_, ?_⟩
    · rw [serveDelays, List.chain'_cons']
      exact ⟨fun y hy => (hm y (List.mem_of_mem_head? hy)).1, hc⟩
    · intro x hx
      rw [serveDelays] at hx
      rcases List.mem_cons.mp hx with hx | hx
      · subst hx; exact ⟨hb3, hb1, hb2⟩
      · have := hm x hx
        exact ⟨le_trans hb3 this.1, this.2⟩
  | AcceptOutcome.fatalErr :: _, d, _ => by simp [serveDelays]
  | AcceptOutcome.exitSignal :: _, d, _ => by simp [serveDelays]

theorem serveDelays_head_eq : ∀ (outcomes : List AcceptOutcome) (d : Nat) (l : List Nat),
    serveDelays outcomes 0 = d :: l → d = 5000000
  | [], d, l, h => by simp [serveDelays] at h
  | AcceptOutcome.success :: rest, d, l, h =>
    serveDelays_head_eq rest d l (by rwa [serveDelays] at h)
  | AcceptOutcome.transientErr :: rest, d, l, h => by
    rw [serveDelays] at h
    injection h with h1 _
    rw [← h1]
    decide
  | AcceptOutcome.fatalErr :: _, d, l, h => by simp [serveDelays] at h
  | AcceptOutcome.exitSignal :: _, d, l, h => by simp [serveDelays] at h

/-- Claim C4 amended: over any run of the accept loop the sleep durations
are non-decreasing, each between 5ms and 1s; the very first sleep is 5ms;
each transient failure sleeps the doubled (5ms-floored, 1s-capped) updated
delay; but a successful accept does not reset the accumulated delay — the
delay sequence after a success continues exactly where it left off. -/
theorem backoff_monotone_no_reset (outcomes : List AcceptOutcome) :
    List.Chain' (· ≤ ·) (serveDelays outcomes 0) ∧
    (∀ x ∈ serveDelays outcomes 0, 5000000 ≤ x ∧ x ≤ 1000000000) ∧
    (∀ d l, serveDelays outcomes 0 = d :: l → d = 5000000) ∧
    (∀ rest d, serveDelays (AcceptOutcome.success :: rest) d = serveDelays rest d) ∧
    (∀ rest d, serveDelays (AcceptOutcome.transientErr :: rest) d =
      nextTempDelay d :: serveDelays rest (nextTempDelay d)) := by
  obtain ⟨hc, hm⟩ := serveDelays_chain outcomes 0 (Or.inl rfl)
  exact ⟨hc, fun x hx => ⟨(hm x hx).2.1, (hm x hx).2.2⟩,
    fun d l hdl => serveDelays_head_eq outcomes d l hdl,
    fun _ _ => rfl, fun _ _ => rfl⟩

theorem backoff_monotone_no_reset_witness :
    List.Chain' (· ≤ ·) (serveDelays [AcceptOutcome.transientErr, AcceptOutcome.success,
      AcceptOutcome.transientErr] 0) ∧
    (∀ x ∈ serveDelays [AcceptOutcome.transientErr, AcceptOutcome.success,
      AcceptOutcome.transientErr] 0, 5000000 ≤ x ∧ x ≤ 1000000000) ∧
    (5000000 : Nat) = 5000000 :=
  ⟨(backoff_monotone_no_reset [AcceptOutcome.transientErr, AcceptOutcome.success,
      AcceptOutcome.transientErr]).1,
   (backoff_monotone_no_reset [AcceptOutcome.transientErr, AcceptOutcome.success,
      AcceptOutcome.transientErr]).2.1,
   (backoff_monotone_no_reset [AcceptOutcome.transientErr, AcceptOutcome.success,
      AcceptOutcome.transientErr]).2.2.1 5000000 [10000000] (by decide)⟩

/-! ## Claim C7: subscriber shape validation -/

/-- A function subscriber of the shape `func(OrderCreated) error`: one
exported payload parameter, no leading context parameter. -/
def noCtxSub : TcpSubscriber :=
  newSubscriber 2 "orders" (SubKind.fn [goPayloadType] [typeOfError]) []

/-- Claim C7, as stated, is false on the code: validation does not treat the
leading context parameter as optional.  A handler with a single
exported payload parameter and exactly one `error` result (which
`newSubscriber` happily wraps into a handler) is rejected by
`validateSubscriber` — the `switch typ.NumIn()` accepts only exactly two
parameters — so `Subscribe` fails on it. -/
theorem optional_context_cex :
    noCtxSub.handlers = [{ ctxType := none, reqType := some goPayloadType }] ∧
    isExportedOrBuiltinType goPayloadType = true ∧
    validateSubscriber noCtxSub.subKind =
      some ("subscriber Func takes wrong number of args: 1 required signature " ++ subSig) ∧
    subscribe stInit (ServerSubscriberValue.tcp noCtxSub) =
      (stInit, some ("subscriber Func takes wrong number of args: 1 required signature " ++
        subSig)) := by
  refine ⟨?_, ?_, ?_, ?_⟩ <;> decide

/-- Claim C7 amended: validation requires the leading context parameter.  A
function subscriber is accepted exactly when it declares two parameters
(context then an exported-or-builtin payload) and one `error` result; any
other parameter count is rejected with a descriptive error naming the
handler, its parameter count and the required signature.  A method
subscriber analogously needs exactly receiver+context+payload per method. -/
theorem validate_requires_context :
    (∀ c a : GoType, isExportedOrBuiltinType a = true →
      validateSubscriber (SubKind.fn [c, a] [typeOfError]) = none) ∧
    (∀ (ins outs : List GoType), ins.length ≠ 2 →
      validateSubscriber (SubKind.fn ins outs) =
        some ("subscriber Func takes wrong number of args: " ++ toString ins.length ++
          " required signature " ++ subSig)) ∧
    (∀ recvName ms,
      (∀ m ∈ ms, (∃ r c a, m.ins = [r, c, a] ∧ isExportedOrBuiltinType a = true) ∧
        m.outs = [typeOfError]) →
      validateSubscriber (SubKind.methodRecv recvName ms) = none) ∧
    (∀ recvName (m : MethodSpec), m.ins.length ≠ 3 →
      validateSubscriber (SubKind.methodRecv recvName [m]) =
        some ("subscriber " ++ recvName ++ "." ++ m.nm ++ " takes wrong number of args: " ++
          toString m.ins.length ++ " required signature " ++ subSig)) := by
  refine ⟨?_, ?_, ?_, ?_⟩
  · intro c a hexp
    simp [validateSubscriber, hexp, typeOfError]
  · intro ins outs hlen
    cases ins with
    | nil => rfl
    | cons a tl =>
      cases tl with
      | nil => rfl
      | cons b tl2 =>
        cases tl2 with
        | nil => exact absurd rfl hlen
        | cons c tl3 => rfl
  · intro recvName ms hms
    induction ms with
    | nil => rfl
    | cons m rest ih =>
      obtain ⟨⟨r, c, a, hins, hexp⟩, houts⟩ := hms m (List.mem_cons_self m rest)
      have hrest := ih (fun q hq => hms q (List.mem_cons_of_mem m hq))
      simp only [validateSubscriber] at hrest ⊢
      rw [validateMethods, hins, houts]
      simp [hexp, hrest]
  · intro recvName m hlen
    obtain ⟨nm, ins, outs⟩ := m
    simp only [MethodSpec.ins] at hlen
    cases ins with
    | nil => rfl
    | cons a tl =>
      cases tl with
      | nil => rfl
      | cons b tl2 =>
        cases tl2 with
        | nil => rfl
        | cons c tl3 =>
          cases tl3 with
          | nil => exact absurd rfl hlen
          | cons d tl4 => rfl

theorem validate_requires_context_witness :
    validateSubscriber (SubKind.fn [goCtxType, goPayloadType] [typeOfError]) = none ∧
    validateSubscriber (SubKind.fn [goPayloadType] [typeOfError]) =
      some ("subscriber Func takes wrong number of args: " ++
        toString ([goPayloadType] : List GoType).length ++ " required signature " ++ subSig) ∧
    validateSubscriber (SubKind.methodRecv "Sub"
      [{ nm := "Handle", ins := [GoType.named "Sub" "app", goCtxType, goPayloadType],
         outs := [typeOfError] }]) = none :=
  ⟨validate_requires_context.1 goCtxType goPayloadType (by decide),
   validate_requires_context.2.1 [goPayloadType] [typeOfError] (by decide),
   validate_requires_context.2.2.1 "Sub" _
     (fun m hm => by
       rw [List.mem_singleton.mp hm]
       exact ⟨⟨GoType.named "Sub" "app", goCtxType, goPayloadType, rfl, by decide⟩, rfl⟩)⟩

/-! ## Claim C8: the advertised endpoint list -/

theorem eq_of_sorted_perm_nodup : ∀ {l₁ l₂ : List TcpSubscriber},
    l₁.Perm l₂ → l₁.Sorted topicGE → l₂.Sorted topicGE →
    (l₁.map TcpSubscriber.topic).Nodup → l₁ = l₂ := by
  intro l₁
  induction l₁ with
  | nil =>
    intro l₂ hp _ _ _
    exact hp.nil_eq
  | cons a t₁ ih =>
    intro l₂ hp hs₁ hs₂ hn
    cases l₂ with
    | nil => exact absurd hp.symm.nil_eq (by simp)
    | cons b t₂ =>
      have hab : a = b := by
        by_contra hne
        have ha2 : a ∈ b :: t₂ := hp.subset (List.mem_cons_self a t₁)
        have hb1 : b ∈ a :: t₁ := hp.symm.subset (List.mem_cons_self b t₂)
        have hat2 : a ∈ t₂ := by
          rcases List.mem_cons.mp ha2 with h | h
          · exact absurd h hne
          · exact h
        have hbt1 : b ∈ t₁ := by
          rcases List.mem_cons.mp hb1 with h | h
          · exact absurd h.symm hne
          · exact h
        have h1 : topicGE a b := (List.sorted_cons.mp hs₁).1 b hbt1
        have h2 : topicGE b a := (List.sorted_cons.mp hs₂).1 a hat2
        have htopic : a.topic = b.topic := strLe_antisymm h2 h1
        have hmem : a.topic ∈ t₁.map TcpSubscriber.topic := by
          rw [htopic]
          exact List.mem_map.mpr ⟨b, hbt1, rfl⟩
        exact (List.nodup_cons.mp hn).1 hmem
      subst hab
      rw [ih hp.cons_inv (List.sorted_cons.mp hs₁).2 (List.sorted_cons.mp hs₂).2
        (List.nodup_cons.mp hn).2]

/-- Two iteration orders of a registry whose topics are pairwise distinct
sort to the same list. -/
theorem sortByTopicDesc_perm_eq {l₁ l₂ : List TcpSubscriber} (hp : l₁.Perm l₂)
    (hn : (l₁.map TcpSubscriber.topic).Nodup) :
    sortByTopicDesc l₁ = sortByTopicDesc l₂ := by
  apply eq_of_sorted_perm_nodup
  · exact (List.perm_insertionSort topicGE l₁).trans
      (hp.trans (List.perm_insertionSort topicGE l₂).symm)
  · exact List.sorted_insertionSort topicGE l₁
  · exact List.sorted_insertionSort topicGE l₂
  · exact (((List.perm_insertionSort topicGE l₁).map TcpSubscriber.topic).nodup_iff).mpr hn

/-- The cold-path `Register` stores exactly the endpoint list built from the
snapshot. -/
theorem register_cold_rsvc (env : RegisterEnv) (st : ServerState)
    (h : st.rsvc = none) (hreg : st.registered = false)
    (hsucc : (register env st).2 = none) :
    ((register env st).1).rsvc =
      some { endpoints := buildEndpoints st.hdEps (st.subscribers.map Prod.fst) } := by
  simp only [register, h] at hsucc ⊢
  cases hns : env.newServiceOk with
  | false => rw [hns] at hsucc; simp at hsucc
  | true =>
    rw [hns] at hsucc
    simp only [hns, Bool.not_true, Bool.false_eq_true, if_false] at hsucc ⊢
    cases hadv : env.advertiseOk with
    | false => rw [hadv] at hsucc; simp at hsucc
    | true =>
      rw [hadv] at hsucc
      simp only [hadv, Bool.not_true, Bool.false_eq_true, if_false] at hsucc ⊢
      rw [hreg] at hsucc
      simp only [hreg, Bool.false_eq_true, if_false] at hsucc ⊢
      cases harm : (armLoop env st.subscribers).2 with
      | some e => rw [harm] at hsucc; simp at hsucc
      | none => rfl

/-- A second valid function subscriber on a different topic. -/
def subP : TcpSubscriber :=
  newSubscriber 12 "payments" (SubKind.fn [goCtxType, goPayloadType] [typeOfError]) []

/-- Two subscribers on the same topic with distinct endpoints (two method
receivers named `Alpha` and `Beta`). -/
def tieA : TcpSubscriber :=
  newSubscriber 10 "orders"
    (SubKind.methodRecv "Alpha"
      [{ nm := "HandleA", ins := [GoType.named "Alpha" "app", goCtxType, goPayloadType],
         outs := [typeOfError] }]) []

def tieB : TcpSubscriber :=
  newSubscriber 11 "orders"
    (SubKind.methodRecv "Beta"
      [{ nm := "HandleB", ins := [GoType.named "Beta" "app", goCtxType, goPayloadType],
         outs := [typeOfError] }]) []

/-- Claim C8's determinism part is false on the code: with two non-internal
subscriptions on the *same* topic, the advertised endpoint order depends on
the iteration order of the `subscribers` map (which Go randomizes), because
`sort.Slice` with the strict `topic >` comparator does not separate equal
topics.  The same registry contents in the two possible iteration orders
produce different endpoint lists. -/
theorem endpoints_tie_nondeterminism_cex :
    List.Perm [tieA, tieB] [tieB, tieA] ∧
    buildEndpoints [] [tieA, tieB] ≠ buildEndpoints [] [tieB, tieA] := by
  constructor
  · exact List.Perm.swap tieB tieA []
  · decide

/-- Claim C8 amended: for any iteration order of the registry, the
advertised endpoints are exactly the request handler's endpoints followed by
the endpoints of the non-internal subscriptions ordered by topic descending;
the result is independent of the iteration order provided the non-internal
subscriptions' topics are pairwise distinct (with equal topics the relative
order of their endpoint blocks is unspecified); and a successful cold
`Register` caches a service record holding exactly this list. -/
theorem advertised_endpoints_spec (hdEps : List Endpoint) (subs : List TcpSubscriber) :
    (∃ sorted : List TcpSubscriber,
      buildEndpoints hdEps subs =
        hdEps ++ (sorted.map TcpSubscriber.endpoints).flatten ∧
      sorted.Perm (subs.filter fun e => !e.opts.internal) ∧
      sorted.Sorted topicGE) ∧
    (∀ subs2, subs.Perm subs2 →
      ((subs.filter fun e => !e.opts.internal).map TcpSubscriber.topic).Nodup →
      buildEndpoints hdEps subs = buildEndpoints hdEps subs2) ∧
    (∀ env st, st.rsvc = none → st.registered = false → (register env st).2 = none →
      ((register env st).1).rsvc =
        some { endpoints := buildEndpoints st.hdEps (st.subscribers.map Prod.fst) }) := by
  refine ⟨⟨sortByTopicDesc (subs.filter fun e => !e.opts.internal), rfl,
      List.perm_insertionSort topicGE _, List.sorted_insertionSort topicGE _⟩, ?_, ?_⟩
  · intro subs2 hp hn
    unfold buildEndpoints
    rw [sortByTopicDesc_perm_eq (hp.filter _) hn]
  · intro env st h hreg hsucc
    exact register_cold_rsvc env st h hreg hsucc

theorem advertised_endpoints_spec_witness :
    (∃ sorted : List TcpSubscriber,
      buildEndpoints [] [sub0, tieA] =
        [] ++ (sorted.map TcpSubscriber.endpoints).flatten ∧
      sorted.Perm ([sub0, tieA].filter fun e => !e.opts.internal) ∧
      sorted.Sorted topicGE) ∧
    (buildEndpoints [] [sub0, subP] = buildEndpoints [] [subP, sub0]) ∧
    ((register envOK stInit).1).rsvc =
      some { endpoints := buildEndpoints [] ([] : List TcpSubscriber) } :=
  ⟨(advertised_endpoints_spec [] [sub0, tieA]).1,
   (advertised_endpoints_spec [] [sub0, subP]).2.1 [subP, sub0]
     (List.Perm.swap subP sub0 []) (by decide),
   (advertised_endpoints_spec [] []).2.2 envOK stInit rfl rfl (by decide)⟩

end MicroTcp
